import Mathlib

/-!
# Verification of the maplibre-rs tile data pipeline

A shallow embedding of the core of the `maplibre` crate:

* the legacy filter-expression evaluator (`src/maplibre/src/style/expression.rs`),
* the zoom interpolation engine (`src/maplibre/src/style/util.rs`),
* the tessellator's feature-index bookkeeping
  (`src/maplibre/src/tessellation/zero_tessellator.rs`),
* the vector tile processor (`src/maplibre/src/vector/process_vector.rs`),
* the tile component store (`src/maplibre/src/tcs/tiles.rs`).

Modelling conventions:

* Rust `f32`/`f64` values are embedded as rationals (`ℚ`).  Every concrete
  value appearing in a theorem below is exactly representable in the source's
  float type and every arithmetic operation performed on it there is exact,
  so the rational model agrees with the float computation at those inputs.
  The one lossy float operation the covered code performs — the
  `isize as f64` cast in mixed-type comparisons, which rounds above `2^53` —
  is modelled explicitly by `isizeAsF64` (round to nearest, ties to even).
* `HashMap<String, ComparisonLiteral>` is embedded as an association list
  `List (String × ComparisonLiteral)` looked up with `List.lookup`.
* `ZoomLevel` (a `u8` newtype defined in `coords.rs`, outside the covered
  sources) is embedded as `Nat`; the subtractions the code performs on it are
  only reached when the subtrahend is no larger than the minuend, where `u8`
  and truncated `Nat` subtraction agree.
* A Rust panic (`unimplemented!`, a failed borrow check) is embedded as
  `Option.none` / `Except.error`.
-/

namespace Maplibre

/-! ## Filter expressions (`style/expression.rs`) -/

/-- `ExpressionComparisonOp` from `style/expression.rs`. -/
inductive ExpressionComparisonOp where
  | Eq
  | Neq
  | Gt
  | Geq
  | Lt
  | Leq
deriving DecidableEq, Repr

/-- `ComparisonLiteral` from `style/expression.rs`.  `Float(f64)` is embedded
as `ℚ` and `Integer(isize)` as `ℤ` (see the module conventions above). -/
inductive ComparisonLiteral where
  | Float (v : ℚ)
  | Integer (v : ℤ)
  | Bool (v : Bool)
  | String (v : String)
deriving DecidableEq, Repr

/-- The value of `n as f64` for a natural number `n`: round to nearest, ties
to even, at `f64`'s 53-bit precision.  Exact for `n ≤ 2^53`; above that, `n`
is rounded to the nearest multiple of the unit in the last place
`2^(log2 n - 52)`.  Every `isize` magnitude (at most `2^63`) is finite in
`f64`, so no overflow arm is needed. -/
def natAsF64 (n : ℕ) : ℚ :=
  if n ≤ 2 ^ 53 then (n : ℚ)
  else
    let k := Nat.log2 n - 52
    let q := n / 2 ^ k
    let r := n % 2 ^ k
    let q' :=
      if 2 * r < 2 ^ k then q
      else if 2 ^ k < 2 * r then q + 1
      else if q % 2 = 0 then q else q + 1
    ((q' * 2 ^ k : ℕ) : ℚ)

/-- The `a as f64` cast of an `isize`.  IEEE rounding is sign-symmetric, so
the cast is the signed extension of `natAsF64`. -/
def isizeAsF64 (a : ℤ) : ℚ :=
  if 0 ≤ a then natAsF64 a.toNat else -natAsF64 (-a).toNat

/-- `ExpressionComparisonOp::compare`.  The `Eq`/`Neq` arms use the derived
`PartialEq` of `ComparisonLiteral` (variant-wise equality, `false` across
variants); the ordering arms convert `isize` to `f64` — the rounding cast
`isizeAsF64`, since `a as f64` is inexact above `2^53` — when the two
operands mix `Integer` and `Float`, and fall back to `false` on any other
mixed pair. -/
def ExpressionComparisonOp.compare (op : ExpressionComparisonOp)
    (a b : ComparisonLiteral) : Bool :=
  match op with
  | .Eq => decide (a = b)
  | .Neq => !(decide (a = b))
  | .Gt =>
    match a, b with
    | .Integer a, .Integer b => decide (a > b)
    | .Integer a, .Float b => decide (isizeAsF64 a > b)
    | .Float a, .Integer b => decide (a > isizeAsF64 b)
    | .Float a, .Float b => decide (a > b)
    | .String a, .String b => decide (b < a)
    | _, _ => false
  | .Geq =>
    match a, b with
    | .Integer a, .Integer b => decide (a ≥ b)
    | .Integer a, .Float b => decide (isizeAsF64 a ≥ b)
    | .Float a, .Integer b => decide (a ≥ isizeAsF64 b)
    | .Float a, .Float b => decide (a ≥ b)
    | .String a, .String b => decide (¬ a < b)
    | _, _ => false
  | .Lt =>
    match a, b with
    | .Integer a, .Integer b => decide (a < b)
    | .Integer a, .Float b => decide (isizeAsF64 a < b)
    | .Float a, .Integer b => decide (a < isizeAsF64 b)
    | .Float a, .Float b => decide (a < b)
    | .String a, .String b => decide (a < b)
    | _, _ => false
  | .Leq =>
    match a, b with
    | .Integer a, .Integer b => decide (a ≤ b)
    | .Integer a, .Float b => decide (isizeAsF64 a ≤ b)
    | .Float a, .Integer b => decide (a ≤ isizeAsF64 b)
    | .Float a, .Float b => decide (a ≤ b)
    | .String a, .String b => decide (¬ b < a)
    | _, _ => false

/-- `LegacyFilterExpression` from `style/expression.rs`. -/
inductive LegacyFilterExpression where
  | Has (key : String)
  | NotHas (key : String)
  | Comparison (op : ExpressionComparisonOp) (key : String)
      (value : ComparisonLiteral)
  | In (key : String) (predicates : List String)
  | NotIn (key : String) (predicates : List String)
  | All (children : List LegacyFilterExpression)
  | Any (children : List LegacyFilterExpression)
  | None (children : List LegacyFilterExpression)
deriving Repr

/-- The feature property bag, `HashMap<String, ComparisonLiteral>`. -/
abbrev PropMap := List (String × ComparisonLiteral)

mutual

/-- `LegacyFilterExpression::evaluate`.  `Option.none` models a panic: the
`In`/`NotIn` arms hit `unimplemented!` when the property value is present but
not a string.  The combinators reproduce the short-circuit evaluation of
Rust's `Iterator::all` / `Iterator::any`. -/
def LegacyFilterExpression.evaluate :
    LegacyFilterExpression → PropMap → Option Bool
  | .Has key, properties => some (properties.lookup key).isSome
  | .NotHas key, properties => some !(properties.lookup key).isSome
  | .Comparison op key value, properties =>
    match properties.lookup key with
    | some v => some (op.compare v value)
    | none => some false
  | .In key predicates, properties =>
    match properties.lookup key with
    | some (.String s) => some (predicates.contains s)
    | some _ => none
    | none => some false
  | .NotIn key predicates, properties =>
    match properties.lookup key with
    | some (.String s) => some !(predicates.contains s)
    | some _ => none
    | none => some false
  | .All children, properties => LegacyFilterExpression.evalAll children properties
  | .Any children, properties => LegacyFilterExpression.evalAny children properties
  | .None children, properties => LegacyFilterExpression.evalNone children properties

/-- `children.iter().all(|c| c.evaluate(properties))`: stops at the first
child evaluating to `false`; a panic in an evaluated child propagates. -/
def LegacyFilterExpression.evalAll :
    List LegacyFilterExpression → PropMap → Option Bool
  | [], _ => some true
  | c :: rest, properties =>
    match c.evaluate properties with
    | none => none
    | some false => some false
    | some true => LegacyFilterExpression.evalAll rest properties

/-- `children.iter().any(|c| c.evaluate(properties))`: stops at the first
child evaluating to `true`. -/
def LegacyFilterExpression.evalAny :
    List LegacyFilterExpression → PropMap → Option Bool
  | [], _ => some false
  | c :: rest, properties =>
    match c.evaluate properties with
    | none => none
    | some true => some true
    | some false => LegacyFilterExpression.evalAny rest properties

/-- `children.iter().all(|c| !c.evaluate(properties))`: stops at the first
child evaluating to `true`. -/
def LegacyFilterExpression.evalNone :
    List LegacyFilterExpression → PropMap → Option Bool
  | [], _ => some true
  | c :: rest, properties =>
    match c.evaluate properties with
    | none => none
    | some true => some false
    | some false => LegacyFilterExpression.evalNone rest properties

end

/-! ## Zoom interpolation (`style/util.rs`) -/

/-- `ZoomLevel`, a `u8` newtype from `coords.rs`, embedded as `Nat` (see the
module conventions). -/
abbrev ZoomLevel := Nat

/-- `InterpolatedQuantity<T>` from `style/layer.rs`. -/
inductive InterpolatedQuantity (T : Type) where
  | Fixed (val : T)
  | Interpolated (base : T) (stops : List (ZoomLevel × T))
deriving Repr

/-- `interpolate` from `style/util.rs`, with `T = f32` embedded as `ℚ`.
The bracketing window is the first adjacent stop pair `(a, b)` with
`a.zoom ≤ zoom ≤ b.zoom`, found by zipping the stop list with its own tail.
The `base == 1.0` arm divides `zoom_diff` by `zoom_prog` exactly as the
source does (`(zoom_diff_u8 as f32) / (zoom_prog_u8 as f32)`); the other arm
is `(base^prog - 1) / (base^diff - 1)` with the natural-number exponent the
source obtains via `u8 → usize`. -/
def interpolate (quantity : InterpolatedQuantity ℚ) (zoom_level : ZoomLevel) :
    Option ℚ :=
  match quantity with
  | .Fixed val => some val
  | .Interpolated base stops =>
    match stops with
    | [] => none
    | s0 :: rest =>
      let minStop := s0
      let maxStop := (s0 :: rest).getLast (List.cons_ne_nil _ _)
      let window := ((s0 :: rest).zip ((s0 :: rest).drop 1)).find?
        (fun w => decide (w.1.1 ≤ zoom_level) && decide (w.2.1 ≥ zoom_level))
      match window with
      | some ((stop_a, stop_a_value), (stop_b, stop_b_value)) =>
        let zoom_diff : ZoomLevel := stop_b - stop_a
        let zoom_prog : ZoomLevel := zoom_level - stop_a
        let interp_factor : ℚ :=
          if zoom_diff = 0 then 0
          else if base = 1 then (zoom_diff : ℚ) / (zoom_prog : ℚ)
          else (base ^ zoom_prog - 1) / (base ^ zoom_diff - 1)
        some (stop_a_value + (stop_b_value - stop_a_value) * interp_factor)
      | none =>
        if zoom_level ≤ minStop.1 then some minStop.2 else some maxStop.2

/-! ## Tessellator feature bookkeeping (`tessellation/zero_tessellator.rs`)

Only the index bookkeeping of `ZeroTessellator` is modelled: the lyon
`VertexBuffers` is abstracted to the length of its index vector, since the
only facts at stake concern how many indices each feature contributes.  A
*tessellation emission* is one call to `tessellate_strokes` or
`tessellate_fill`: it evaluates the active filter against the accumulated
properties (abstracted to its boolean outcome `passes`) and, when the filter
passes, lets lyon append some number of indices (abstracted to `appended`,
the growth of `buffer.indices`); when it fails it sets `filtered` and
appends nothing. -/

/-- The bookkeeping fields of `ZeroTessellator`. -/
structure ZeroTessellatorState where
  indicesLen : Nat
  feature_indices : List Nat
  current_index : Nat
  filtered : Bool
deriving DecidableEq, Repr

/-- The geometry/feature events that touch the bookkeeping fields. -/
inductive TessEvent where
  | featureBegin
  | emission (passes : Bool) (appended : Nat)
  | featureEnd
deriving DecidableEq, Repr

/-- One event step of `ZeroTessellator`:
`feature_begin` clears the `filtered` flag; an emission either appends
indices (filter passed) or marks the feature filtered and appends nothing;
`feature_end` runs `update_feature_indices` (push
`buffer.indices.len() - current_index`, then advance `current_index`)
unless the feature is marked filtered. -/
def tessStep (s : ZeroTessellatorState) : TessEvent → ZeroTessellatorState
  | .featureBegin => { s with filtered := false }
  | .emission passes appended =>
    if passes then { s with indicesLen := s.indicesLen + appended }
    else { s with filtered := true }
  | .featureEnd =>
    if s.filtered then s
    else
      { s with
        feature_indices := s.feature_indices ++ [s.indicesLen - s.current_index]
        current_index := s.indicesLen }

/-- The state of a fresh `ZeroTessellator` (`ZeroTessellator::new`). -/
def tessInit : ZeroTessellatorState := ⟨0, [], 0, false⟩

/-- Run a geometry-event stream through the tessellator bookkeeping. -/
def tessRun (events : List TessEvent) : ZeroTessellatorState :=
  events.foldl tessStep tessInit

/-- A feature that carries at most one tessellation emission, as every MVT
feature does (one geometry per feature): optionally an emission with the
filter outcome and the number of appended indices. -/
def featureEvents : Option (Bool × Nat) → List TessEvent
  | none => [.featureBegin, .featureEnd]
  | some (passes, appended) =>
    [.featureBegin, .emission passes appended, .featureEnd]

/-- Indices contributed to the buffer by a single-emission feature. -/
def featurePassIndices : Option (Bool × Nat) → Nat
  | some (true, appended) => appended
  | _ => 0

/-- Ledger entries contributed by a single-emission feature: one unless the
feature was filtered. -/
def featureLedgerCount : Option (Bool × Nat) → Nat
  | some (false, _) => 0
  | _ => 1

/-- Run the bookkeeping of one whole feature. -/
def processFeature (s : ZeroTessellatorState) (f : Option (Bool × Nat)) :
    ZeroTessellatorState :=
  (featureEvents f).foldl tessStep s

/-! ## Vector tile processor (`vector/process_vector.rs`)

`process_vector_tile` is modelled from the point where the tile bytes have
been decoded (decoding is `prost`/`geozero` library code; a decode failure
returns before any message is sent).  A decoded tile layer is its name plus
the outcome of `layer.process(&mut tessellator)` for the tessellator built
from a given style layer — an external `geozero`/`lyon` computation,
abstracted as a function from the style layer to either an error or the
resulting feature-index ledger.  The sink (`Context::send_back`) is
abstracted as a success predicate on messages; a successful send appends the
message to the sent transcript, a failed send is the `SendError` path. -/

/-- The fields of `StyleLayer` (`style/layer.rs`) that
`process_vector_tile` consults. -/
structure StyleLayerM where
  id : String
  source_layer : Option String
deriving DecidableEq, Repr

/-- A decoded tile layer: its `name`, and the outcome of running
`layer.process` with a `ZeroTessellator` configured for a given style layer.
`.error ()` models `layer.process` returning `Err` — a *geozero processing
error*, the only error the `ZeroTessellator` drive can return, which the
caller recovers by reporting the layer missing; `.ok fi` models success with
feature-index ledger `fi`.  A lyon tessellation-*library* failure never
reaches this `Err` path: it hits the `.unwrap()` inside the tessellator and
panics, which `TessOutcome`/`TileLayerP` below model separately. -/
structure TileLayerM where
  name : String
  tess : StyleLayerM → Except Unit (List Nat)

/-- The messages `process_vector_tile` can send for one tile (the shared
`coords` argument is omitted; `layer_indexed` is dead code in the source). -/
inductive Msg where
  | layerTessellated (style_layer_id : String) (feature_indices : List Nat)
  | layerMissing (layer_name : String)
  | tileFinished
deriving DecidableEq, Repr

/-- `Context::send_back` through `ProcessVectorContext`: on success the
message joins the transcript, on failure the `SendError` is propagated. -/
def sendBack (sink : Msg → Bool) (sent : List Msg) (m : Msg) :
    Except Unit (List Msg) :=
  if sink m then .ok (sent ++ [m]) else .error ()

/-- The body of the inner style-layer loop: on tessellation failure report
`layer_missing`; on success send `layer_tessellated`, falling back to
`layer_missing` if that send fails. -/
def processStyleLayer (sink : Msg → Bool) (layer : TileLayerM)
    (sl : StyleLayerM) (sent : List Msg) : Except Unit (List Msg) :=
  match layer.tess sl with
  | .error _ => sendBack sink sent (.layerMissing sl.id)
  | .ok fi =>
    match sendBack sink sent (.layerTessellated sl.id fi) with
    | .ok sent' => .ok sent'
    | .error _ => sendBack sink sent (.layerMissing sl.id)

/-- The style layers matched to a decoded layer:
`style.layers.iter().filter(|sl| sl.source_layer == Some(layer_name))`. -/
def corresponding (style_layers : List StyleLayerM) (layer_name : String) :
    List StyleLayerM :=
  style_layers.filter (fun sl => sl.source_layer = some layer_name)

/-- The inner loop over the style layers matched to one decoded layer. -/
def runStyleLayers (sink : Msg → Bool) (layer : TileLayerM) :
    List StyleLayerM → List Msg → Except Unit (List Msg)
  | [], sent => .ok sent
  | sl :: rest, sent =>
    match processStyleLayer sink layer sl sent with
    | .error e => .error e
    | .ok sent' => runStyleLayers sink layer rest sent'

/-- The outer loop over decoded tile layers, skipping layers whose name is
not in the requested set. -/
def runLayers (sink : Msg → Bool) (requested : List String)
    (style_layers : List StyleLayerM) :
    List TileLayerM → List Msg → Except Unit (List Msg)
  | [], sent => .ok sent
  | layer :: rest, sent =>
    if requested.contains layer.name then
      match runStyleLayers sink layer (corresponding style_layers layer.name)
          sent with
      | .error e => .error e
      | .ok sent' => runLayers sink requested style_layers rest sent'
    else runLayers sink requested style_layers rest sent

/-- The loop reporting requested layer names absent from the decoded tile. -/
def runMissing (sink : Msg → Bool) :
    List String → List Msg → Except Unit (List Msg)
  | [], sent => .ok sent
  | name :: rest, sent =>
    match sendBack sink sent (.layerMissing name) with
    | .error e => .error e
    | .ok sent' => runMissing sink rest sent'

/-- The names of the decoded tile layers (`available_layers` in the
source). -/
def availableNames (layers : List TileLayerM) : List String :=
  layers.map (·.name)

/-- `process_vector_tile` after a successful decode: the per-layer loop,
then the missing-layer reports (`requested.difference(available)`; the hash
set is modelled as a list, its iteration order as the list order), then the
final `tile_finished`.  The result is the transcript of sent messages, or
`(.error ())` if a send failed. -/
def processVectorTile (sink : Msg → Bool) (layers : List TileLayerM)
    (requested : List String) (style_layers : List StyleLayerM) :
    Except Unit (List Msg) :=
  match runLayers sink requested style_layers layers [] with
  | .error e => .error e
  | .ok sent =>
    match runMissing sink
        (requested.filter (fun n => !(availableNames layers).contains n))
        sent with
    | .error e => .error e
    | .ok sent' => sendBack sink sent' .tileFinished

/-- The single message a (decoded layer, style layer) pair produces when the
sink never fails. -/
def pairMsg (layer : TileLayerM) (sl : StyleLayerM) : Msg :=
  match layer.tess sl with
  | .error _ => .layerMissing sl.id
  | .ok fi => .layerTessellated sl.id fi

/-- All per-layer result messages, in processing order. -/
def perLayerMsgs (layers : List TileLayerM) (requested : List String)
    (style_layers : List StyleLayerM) : List Msg :=
  layers.flatMap fun layer =>
    if requested.contains layer.name then
      (corresponding style_layers layer.name).map (pairMsg layer)
    else []

/-- The missing-layer reports for requested names absent from the tile. -/
def missingMsgs (layers : List TileLayerM) (requested : List String) :
    List Msg :=
  (requested.filter (fun n => !(availableNames layers).contains n)).map
    .layerMissing

/-- The three possible outcomes of driving one `ZeroTessellator` over a
decoded layer for one style layer, distinguishing the two failure paths the
source actually has:

* `ok fi` — `layer.process` returned `Ok` with feature-index ledger `fi`;
* `processError` — `layer.process` returned `Err` (a geozero processing
  error), the recoverable `Err` branch of `process_vector_tile`;
* `libraryPanic` — the lyon `tessellate_path` call inside
  `tessellate_strokes`/`tessellate_fill` returned `Err` and the `.unwrap()`
  on it panicked; the panic unwinds out of `layer.process` and out of
  `process_vector_tile`. -/
inductive TessOutcome where
  | ok (feature_indices : List Nat)
  | processError
  | libraryPanic
deriving DecidableEq, Repr

/-- A decoded tile layer with the tessellation outcome per style layer kept
three-valued, so that the panicking library-failure path is represented. -/
structure TileLayerP where
  name : String
  tess : StyleLayerM → TessOutcome

/-- How an invocation of `process_vector_tile` can fail to run to
completion: a Rust panic unwinding out of it, or a sink `SendError`. -/
inductive Abort where
  | panicked
  | sendFailed
deriving DecidableEq, Repr

/-- `Context::send_back` in the panic-aware model. -/
def sendBackP (sink : Msg → Bool) (sent : List Msg) (m : Msg) :
    Except Abort (List Msg) :=
  if sink m then .ok (sent ++ [m]) else .error .sendFailed

/-- The style-layer loop body in the panic-aware model: a library failure
panics before any report can be sent for the pair; a `layer.process` error
is reported as `layer_missing`; success sends `layer_tessellated` with the
`layer_missing` fallback on a failed send. -/
def processStyleLayerP (sink : Msg → Bool) (layer : TileLayerP)
    (sl : StyleLayerM) (sent : List Msg) : Except Abort (List Msg) :=
  match layer.tess sl with
  | .libraryPanic => .error .panicked
  | .processError => sendBackP sink sent (.layerMissing sl.id)
  | .ok fi =>
    match sendBackP sink sent (.layerTessellated sl.id fi) with
    | .ok sent' => .ok sent'
    | .error _ => sendBackP sink sent (.layerMissing sl.id)

/-- The inner style-layer loop, panic-aware. -/
def runStyleLayersP (sink : Msg → Bool) (layer : TileLayerP) :
    List StyleLayerM → List Msg → Except Abort (List Msg)
  | [], sent => .ok sent
  | sl :: rest, sent =>
    match processStyleLayerP sink layer sl sent with
    | .error e => .error e
    | .ok sent' => runStyleLayersP sink layer rest sent'

/-- The outer decoded-layer loop, panic-aware. -/
def runLayersP (sink : Msg → Bool) (requested : List String)
    (style_layers : List StyleLayerM) :
    List TileLayerP → List Msg → Except Abort (List Msg)
  | [], sent => .ok sent
  | layer :: rest, sent =>
    if requested.contains layer.name then
      match runStyleLayersP sink layer
          (corresponding style_layers layer.name) sent with
      | .error e => .error e
      | .ok sent' => runLayersP sink requested style_layers rest sent'
    else runLayersP sink requested style_layers rest sent

/-- The absent-layer report loop, panic-aware. -/
def runMissingP (sink : Msg → Bool) :
    List String → List Msg → Except Abort (List Msg)
  | [], sent => .ok sent
  | name :: rest, sent =>
    match sendBackP sink sent (.layerMissing name) with
    | .error e => .error e
    | .ok sent' => runMissingP sink rest sent'

/-- The decoded tile layer names in the panic-aware model. -/
def availableNamesP (layers : List TileLayerP) : List String :=
  layers.map (·.name)

/-- `process_vector_tile` after a successful decode, in the panic-aware
model: identical to `processVectorTile` except that a lyon library failure
surfaces as the `.panicked` abort — nothing further is sent and the caller
never gets a result for the tile. -/
def processVectorTileP (sink : Msg → Bool) (layers : List TileLayerP)
    (requested : List String) (style_layers : List StyleLayerM) :
    Except Abort (List Msg) :=
  match runLayersP sink requested style_layers layers [] with
  | .error e => .error e
  | .ok sent =>
    match runMissingP sink
        (requested.filter (fun n => !(availableNamesP layers).contains n))
        sent with
    | .error e => .error e
    | .ok sent' => sendBackP sink sent' .tileFinished

/-! ## Tile component store (`tcs/tiles.rs`)

Two slices of `Tiles` are modelled.

*Query aliasing.*  `GlobalQueryState` holds the set of `TypeId`s already
exclusively borrowed in the current query session (`mutably_borrowed`);
`ComponentQueryUnsafe::query_unsafe` for `&mut T` panics if `T`'s id is
already in the set, inserts it, then looks the component up.  A component
type is abstracted to its `TypeId` (a `Nat`); a tile's component vector to
the list of `TypeId`s present on the tile (the source stores at most one
live component per type); the borrowed-out references to `Unit`.

*`clear`/`find_layer`.*  `build_quad_key` (defined in `coords.rs`, outside
the covered sources, and injective on in-range coordinates per its ordering
contract) is abstracted away by keying the two `BTreeMap`s by the
`WorldTileCoords` triple itself; `GeometryIndex` and the GPU vertex buffer
(both external) are abstracted to opaque `Nat` payloads, and
`buffer_pool.get_loaded_layers_at(coords).unwrap_or_default()` to the list
`loaded_layers` passed in by the caller. -/

/-- `std::any::TypeId`, abstracted. -/
abbrev TypeIdM := Nat

/-- Whether a component request is `&T` (shared) or `&mut T` (exclusive). -/
inductive CQKind where
  | shared
  | exclusive
deriving DecidableEq, Repr

/-- `ComponentQueryUnsafe::query_unsafe` for a single component request
against `GlobalQueryState` (the `mutably_borrowed` set, modelled as a
list).  The shared instance delegates to `ComponentQuery::query` and does
not touch the borrow set; the exclusive instance panics (`.error ()`) if the
type is already borrowed, records the borrow, and then performs the lookup
(the borrow is recorded even when the component turns out to be absent). -/
def queryUnsafe (kind : CQKind) (present : List TypeIdM) (id : TypeIdM)
    (borrowed : List TypeIdM) :
    Except Unit (Option Unit × List TypeIdM) :=
  match kind with
  | .shared =>
    .ok (if present.contains id then some () else none, borrowed)
  | .exclusive =>
    if borrowed.contains id then .error ()
    else .ok (if present.contains id then some () else none, id :: borrowed)

/-- `ComponentQueryMut for (CQ1, CQ2)`: one composite query session.  A
fresh `GlobalQueryState` is created (`Tiles::query_mut`), the first
sub-query runs, and only if it found its component does the second run with
the borrow set the first left behind; `none` (absent component) aborts the
composite with no result, `.error ()` is the aliasing panic. -/
def tupleQueryMut (k1 k2 : CQKind) (present : List TypeIdM)
    (id1 id2 : TypeIdM) : Except Unit (Option (Unit × Unit)) :=
  match queryUnsafe k1 present id1 [] with
  | .error e => .error e
  | .ok (none, _) => .ok none
  | .ok (some r1, borrowed1) =>
    match queryUnsafe k2 present id2 borrowed1 with
    | .error e => .error e
    | .ok (none, _) => .ok none
    | .ok (some r2, _) => .ok (some (r1, r2))

/-- `WorldTileCoords`, the `(x, y, zoom)` triple. -/
abbrev WorldTileCoordsM := Int × Int × Nat

/-- `AvailableVectorLayerData` (declared in `vector/mod.rs`, outside the
covered sources; its fields are read off its uses in `tiles.rs` and
`process_vector.rs`).  The GPU vertex buffer is abstracted to an opaque
payload. -/
structure AvailableVectorLayerDataM where
  coords : WorldTileCoordsM
  feature_indices : List Nat
  buffer : Nat
  style_layer_id : String
deriving DecidableEq, Repr

/-- `VectorLayerData`: an available layer or a missing layer name. -/
inductive VectorLayerDataM where
  | Available (data : AvailableVectorLayerDataM)
  | Missing (name : String)
deriving DecidableEq, Repr

/-- The fields of `Tiles` (`tcs/tiles.rs`).  `components` stores each
tile's `VectorLayersDataComponent` content — the only component type
`find_layer` queries; `geometry_index` is an opaque stand-in for the
external `GeometryIndex`. -/
structure TilesM where
  tiles : List (WorldTileCoordsM × Unit)
  components : List (WorldTileCoordsM × List VectorLayerDataM)
  geometry_index : Nat
  background_tile : AvailableVectorLayerDataM
deriving DecidableEq, Repr

/-- `Tiles::clear`: `self.tiles.clear(); self.components.clear();` — the
other two fields are untouched. -/
def TilesM.clear (t : TilesM) : TilesM :=
  { t with tiles := [], components := [] }

/-- `Tiles::find_layer`.  With a source-layer name: query the tile's vector
layers, keep the available ones not already in `loaded_layers`, and return
the first with the requested style-layer id.  Without one (background
layers): unless the style layer is already loaded, overwrite the background
tile's `style_layer_id` in place and return the background tile.  The
returned `TilesM` carries that in-place mutation. -/
def TilesM.find_layer (t : TilesM) (coords : WorldTileCoordsM)
    (source_layer_name : Option String) (style_layer_id : String)
    (loaded_layers : List String) :
    Option AvailableVectorLayerDataM × TilesM :=
  match source_layer_name with
  | some _ =>
    match t.components.lookup coords with
    | none => (none, t)
    | some vector_layers =>
      let available_layers := (vector_layers.filterMap fun data =>
          match data with
          | .Available data => some data
          | .Missing _ => none).filter
        (fun data => !(loaded_layers.contains data.style_layer_id))
      (available_layers.find?
        (fun layer => style_layer_id = layer.style_layer_id), t)
  | none =>
    if !(loaded_layers.contains style_layer_id) then
      let bg := { t.background_tile with style_layer_id := style_layer_id }
      (some bg, { t with background_tile := bg })
    else (none, t)

theorem tessRun_flatMap_featureEvents (features : List (Option (Bool × Nat))) :
    tessRun (features.flatMap featureEvents) = features.foldl processFeature tessInit := by
  unfold tessRun
  generalize tessInit = s
  induction features generalizing s with
  | nil => rfl
  | cons f fs ih =>
    simp only [List.flatMap_cons, List.foldl_append, List.foldl_cons]
    exact ih _

theorem processFeature_invariant (features : List (Option (Bool × Nat)))
    (s : ZeroTessellatorState)
    (h1 : s.current_index = s.indicesLen)
    (h2 : s.feature_indices.sum = s.current_index) :
    (features.foldl processFeature s).current_index
        = (features.foldl processFeature s).indicesLen ∧
    (features.foldl processFeature s).feature_indices.sum
        = (features.foldl processFeature s).current_index ∧
    (features.foldl processFeature s).indicesLen
        = s.indicesLen + (features.map featurePassIndices).sum ∧
    (features.foldl processFeature s).feature_indices.length
        = s.feature_indices.length + (features.map featureLedgerCount).sum := by
  induction features generalizing s with
  | nil => simp [h1, h2]
  | cons f fs ih =>
    obtain ⟨iL, fi, cI, fl⟩ := s
    simp only at h1 h2
    subst h1
    match f with
    | none =>
      have := ih ⟨cI, fi ++ [cI - cI], cI, false⟩ (by simp) (by simp [h2])
      simpa [processFeature, featureEvents, tessStep, featurePassIndices,
        featureLedgerCount, Nat.add_assoc, Nat.add_comm, Nat.add_left_comm] using this
    | some (true, k) =>
      have := ih ⟨cI + k, fi ++ [cI + k - cI], cI + k, false⟩ (by simp)
        (by simp [h2])
      simpa [processFeature, featureEvents, tessStep, featurePassIndices,
        featureLedgerCount, Nat.add_assoc, Nat.add_comm, Nat.add_left_comm] using this
    | some (false, k) =>
      have := ih ⟨cI, fi, cI, true⟩ (by simp) (by simp [h2])
      simpa [processFeature, featureEvents, tessStep, featurePassIndices,
        featureLedgerCount, Nat.add_assoc, Nat.add_comm, Nat.add_left_comm] using this

/-- **C1.** The claim is false of the code and the spec flags the discrepancy
itself: in the `base == 1.0` arm `interpolate` computes the factor as
`zoom_diff / zoom_prog` (span over progress) instead of the linear fraction
`zoom_prog / zoom_diff`.  At the claim's own example — stops
`[(0, 0.0), (10, 10.0)]`, base `1.0`, zoom `5` — the code yields
`0 + (10 - 0) * (10 / 5) = 20.0`, not the claimed `5.0`.  (All arithmetic at
this input is exact in `f32`, so the rational model coincides with the
code.) -/
theorem C1_interpolate_inverted_linear_factor :
    interpolate (.Interpolated 1 [(0, 0), (10, 10)]) 5 = some 20 ∧
    (20 : ℚ) ≠ 5 := by
  norm_num [interpolate]

/-- **C2, counterexample.** A feature whose first tessellation emission
passes the filter (appending 3 indices) and whose second emission is rejected
ends marked `filtered`: it pushes no ledger entry, yet its 3 indices stay in
the buffer, so the ledger sum (0) differs from the final index-buffer length
(3) — refuting the claim for arbitrary geometry-event streams. -/
theorem C2_counterexample :
    ((tessRun [.featureBegin, .emission true 3, .emission false 0,
        .featureEnd]).feature_indices.sum =
      (tessRun [.featureBegin, .emission true 3, .emission false 0,
        .featureEnd]).indicesLen) = False := by
  decide

/-- **C2, amended.** For geometry-event streams in which every feature
carries at most one tessellation emission — as every MVT feature does, one
geometry per feature — the sum of the feature-index ledger equals the final
index-buffer length; moreover the buffer length is the sum of the indices
appended by accepted emissions and the ledger has one entry per non-filtered
feature, so filtered features contribute zero ledger entries and zero
indices. -/
theorem C2_ledger_conservation (features : List (Option (Bool × Nat))) :
    (tessRun (features.flatMap featureEvents)).feature_indices.sum
        = (tessRun (features.flatMap featureEvents)).indicesLen ∧
    (tessRun (features.flatMap featureEvents)).indicesLen
        = (features.map featurePassIndices).sum ∧
    (tessRun (features.flatMap featureEvents)).feature_indices.length
        = (features.map featureLedgerCount).sum := by
  rw [tessRun_flatMap_featureEvents]
  have h := processFeature_invariant features tessInit rfl rfl
  refine ⟨h.2.1.trans h.1, ?_, ?_⟩
  · simpa [tessInit] using h.2.2.1
  · simpa [tessInit] using h.2.2.2

theorem runStyleLayers_ok (sink : Msg → Bool) (hsink : ∀ m, sink m = true)
    (layer : TileLayerM) (sls : List StyleLayerM) (sent : List Msg) :
    runStyleLayers sink layer sls sent
      = .ok (sent ++ sls.map (pairMsg layer)) := by
  induction sls generalizing sent with
  | nil => simp [runStyleLayers]
  | cons sl rest ih =>
    simp only [runStyleLayers, processStyleLayer, sendBack, hsink, if_true,
      pairMsg, List.map_cons]
    match h : layer.tess sl with
    | .error e => simp [ih, List.append_assoc]
    | .ok fi => simp [ih, List.append_assoc]

theorem runLayers_ok (sink : Msg → Bool) (hsink : ∀ m, sink m = true)
    (requested : List String) (style_layers : List StyleLayerM)
    (layers : List TileLayerM) (sent : List Msg) :
    runLayers sink requested style_layers layers sent
      = .ok (sent ++ perLayerMsgs layers requested style_layers) := by
  induction layers generalizing sent with
  | nil => simp [runLayers, perLayerMsgs]
  | cons layer rest ih =>
    simp only [runLayers, perLayerMsgs, List.flatMap_cons]
    by_cases h : requested.contains layer.name
    · simp only [h, if_true, runStyleLayers_ok sink hsink]
      rw [ih]
      simp [perLayerMsgs, List.append_assoc]
    · simp only [h, if_false]
      rw [ih]
      simp only [h] at *
      simp [perLayerMsgs]

theorem runMissing_ok (sink : Msg → Bool) (hsink : ∀ m, sink m = true)
    (names : List String) (sent : List Msg) :
    runMissing sink names sent = .ok (sent ++ names.map .layerMissing) := by
  induction names generalizing sent with
  | nil => simp [runMissing]
  | cons name rest ih =>
    simp [runMissing, sendBack, hsink, ih, List.append_assoc]

theorem processVectorTile_ok_eq (sink : Msg → Bool)
    (hsink : ∀ m, sink m = true) (layers : List TileLayerM)
    (requested : List String) (style_layers : List StyleLayerM) :
    processVectorTile sink layers requested style_layers
      = .ok (perLayerMsgs layers requested style_layers
          ++ missingMsgs layers requested ++ [.tileFinished]) := by
  simp only [processVectorTile, runLayers_ok sink hsink, runMissing_ok sink
    hsink, sendBack, hsink, if_true, List.nil_append, missingMsgs,
    List.append_assoc]

/-- **C5.** When decoding succeeded (the model starts from decoded layers)
and the sink never fails, `process_vector_tile` sends, in order: all
per-layer results — one `layer_tessellated` or `layer_missing` per
(decoded layer, matching style layer) pair, in pairing order — then one
`layer_missing` per requested layer name absent from the tile, then exactly
one `tile_finished` as the final message. -/
theorem C5_message_ordering (sink : Msg → Bool) (hsink : ∀ m, sink m = true)
    (layers : List TileLayerM) (requested : List String)
    (style_layers : List StyleLayerM) :
    processVectorTile sink layers requested style_layers
      = .ok (perLayerMsgs layers requested style_layers
          ++ missingMsgs layers requested ++ [.tileFinished]) := by
  exact processVectorTile_ok_eq sink hsink layers requested style_layers

/-- **C5, witness.** A concrete run: one decoded layer `"water"` matching one
style layer that tessellates successfully, a second requested layer
`"roads"` absent from the tile. -/
theorem C5_message_ordering_witness :
    processVectorTile (fun _ => true)
        [⟨"water", fun _ => .ok [3]⟩] ["water", "roads"]
        [⟨"l1", some "water"⟩]
      = .ok [.layerTessellated "l1" [3], .layerMissing "roads",
          .tileFinished] := by
  rw [C5_message_ordering (fun _ => true) (fun _ => rfl)]
  rfl

/-- **C3.** The claim is false of the code: a tessellation-library (lyon)
failure is *not* recovered locally.  It hits the `.unwrap()` inside
`tessellate_strokes`/`tessellate_fill` and panics, unwinding out of
`process_vector_tile`: at a tile whose decoded layer `"water"` is matched by
style layers `l1` and `l2`, a library failure while processing `l1` aborts
the whole request — no `layer_missing` is sent for `l1`, `l2` is never
processed, and no `tile_finished` is sent.  (The spec's own design notes
record that the source treats library failure as fatal and instruct
reimplementers to convert it into the local `layer_missing` recovery the
claim describes; the recoverable `Err` branch in `process_vector_tile`
catches only geozero processing errors.) -/
theorem C3_library_failure_panics :
    processVectorTileP (fun _ => true)
        [⟨"water", fun sl => if sl.id = "l1" then .libraryPanic
            else .ok [3]⟩]
        ["water"] [⟨"l1", some "water"⟩, ⟨"l2", some "water"⟩]
      = .error .panicked
    ∧ ∀ msgs, processVectorTileP (fun _ => true)
        [⟨"water", fun sl => if sl.id = "l1" then .libraryPanic
            else .ok [3]⟩]
        ["water"] [⟨"l1", some "water"⟩, ⟨"l2", some "water"⟩]
      ≠ .ok msgs := by
  refine ⟨rfl, fun msgs h => ?_⟩
  exact absurd h (by simp [processVectorTileP, runLayersP, runStyleLayersP,
    processStyleLayerP, corresponding])


/-- **C4.** Evaluating `In`/`NotIn` against a property whose value is present
but not a string hits `unimplemented!` — a panic (`none` in the model),
never a silent boolean. -/
theorem C4_membership_non_string_fatal (key : String)
    (predicates : List String) (properties : PropMap)
    (v : ComparisonLiteral) (hv : properties.lookup key = some v)
    (hns : ∀ s, v ≠ ComparisonLiteral.String s) :
    (LegacyFilterExpression.In key predicates).evaluate properties = none ∧
    (LegacyFilterExpression.NotIn key predicates).evaluate properties
      = none := by
  cases v with
  | String s => exact absurd rfl (hns s)
  | Float q => simp [LegacyFilterExpression.evaluate, hv]
  | Integer n => simp [LegacyFilterExpression.evaluate, hv]
  | Bool b => simp [LegacyFilterExpression.evaluate, hv]

/-- **C4, witness.** Property `"x"` present with the non-string value
`Integer 7`. -/
theorem C4_membership_non_string_fatal_witness :
    (LegacyFilterExpression.In "x" ["a"]).evaluate
        [("x", ComparisonLiteral.Integer 7)] = none ∧
    (LegacyFilterExpression.NotIn "x" ["a"]).evaluate
        [("x", ComparisonLiteral.Integer 7)] = none := by
  exact C4_membership_non_string_fatal "x" ["a"]
    [("x", ComparisonLiteral.Integer 7)] (ComparisonLiteral.Integer 7) rfl
    (fun s h => by cases h)

/-- **C6.** `Has "x"` evaluates to whether the property map contains `"x"`;
`Comparison(Gt, "x", Integer 5)` is `false` with `"x"` absent, `true` with
`"x" = Integer 10`, `false` with `"x" = Integer 3`; and any comparison whose
key is absent evaluates to `false`. -/
theorem C6_has_and_comparison (properties : PropMap) :
    (LegacyFilterExpression.Has "x").evaluate properties
        = some (properties.lookup "x").isSome
    ∧ (LegacyFilterExpression.Comparison .Gt "x"
        (.Integer 5)).evaluate [] = some false
    ∧ (LegacyFilterExpression.Comparison .Gt "x"
        (.Integer 5)).evaluate [("x", .Integer 10)] = some true
    ∧ (LegacyFilterExpression.Comparison .Gt "x"
        (.Integer 5)).evaluate [("x", .Integer 3)] = some false
    ∧ ∀ (op : ExpressionComparisonOp) (key : String)
        (lit : ComparisonLiteral) (props : PropMap),
        props.lookup key = none →
        (LegacyFilterExpression.Comparison op key lit).evaluate props
          = some false := by
  refine ⟨rfl, by decide, by decide, by decide, ?_⟩
  intro op key lit props h
  simp [LegacyFilterExpression.evaluate, h]

/-- **C6, witness.** The universally quantified parts instantiated: a map
containing `"x"` and, for the absent-key clause, the comparison
`Comparison(Lt, "y", Float 1)` against a map with only `"x"`. -/
theorem C6_has_and_comparison_witness :
    (LegacyFilterExpression.Has "x").evaluate
        [("x", ComparisonLiteral.Bool true)]
      = some (([("x", ComparisonLiteral.Bool true)] : PropMap).lookup
          "x").isSome
    ∧ (LegacyFilterExpression.Comparison .Lt "y"
        (.Float 1)).evaluate [("x", .Bool true)] = some false := by
  refine ⟨(C6_has_and_comparison [("x", ComparisonLiteral.Bool true)]).1, ?_⟩
  exact (C6_has_and_comparison []).2.2.2.2 .Lt "y" (.Float 1)
    [("x", .Bool true)] rfl

/-- **C7.** In one composite exclusive-exclusive query session on the tile
store, a second exclusive borrow request for the same component type hits
the `mutably_borrowed` check and panics whenever it is issued at all (it is
issued exactly when the first sub-query found its component); the session
never returns two exclusive references for the same type. -/
theorem C7_exclusive_borrow_aliasing_guard (present : List TypeIdM)
    (id : TypeIdM) :
    (present.contains id = true →
      tupleQueryMut .exclusive .exclusive present id id = .error ())
    ∧ (present.contains id = false →
      tupleQueryMut .exclusive .exclusive present id id = .ok none)
    ∧ ∀ r, tupleQueryMut .exclusive .exclusive present id id
        ≠ .ok (some r) := by
  refine ⟨?_, ?_, ?_⟩
  · intro h
    have h' : id ∈ present := by simpa using h
    simp [tupleQueryMut, queryUnsafe, h']
  · intro h
    have h' : id ∉ present := by simpa using h
    simp [tupleQueryMut, queryUnsafe, h']
  · intro r
    by_cases h' : id ∈ present
    · simp [tupleQueryMut, queryUnsafe, h']
    · simp [tupleQueryMut, queryUnsafe, h']

/-- **C7, witness.** The component with id `5` is present; the composite
exclusive-exclusive query for it twice panics. -/
theorem C7_exclusive_borrow_aliasing_guard_witness :
    tupleQueryMut .exclusive .exclusive [5] 5 5 = .error ()
    ∧ ∀ r, tupleQueryMut .exclusive .exclusive [5] 5 5 ≠ .ok (some r) := by
  exact ⟨(C7_exclusive_borrow_aliasing_guard [5] 5).1 rfl,
    (C7_exclusive_borrow_aliasing_guard [5] 5).2.2⟩

/-- **C8.** On a property map lacking the key, both `In` and `NotIn`
evaluate to `false` (the `is_some_and` on an absent key), so `NotIn` is not
the boolean negation of `In` there. -/
theorem C8_membership_absent_key (key : String) (predicates : List String)
    (properties : PropMap) (h : properties.lookup key = none) :
    (LegacyFilterExpression.In key predicates).evaluate properties
        = some false
    ∧ (LegacyFilterExpression.NotIn key predicates).evaluate properties
        = some false
    ∧ (LegacyFilterExpression.NotIn key predicates).evaluate properties
        ≠ ((LegacyFilterExpression.In key predicates).evaluate
            properties).map (fun b => !b) := by
  refine ⟨?_, ?_, ?_⟩ <;> simp [LegacyFilterExpression.evaluate, h]

/-- **C8, witness.** The empty property map lacks `"x"`. -/
theorem C8_membership_absent_key_witness :
    (LegacyFilterExpression.In "x" ["a", "b"]).evaluate [] = some false
    ∧ (LegacyFilterExpression.NotIn "x" ["a", "b"]).evaluate [] = some false
    ∧ (LegacyFilterExpression.NotIn "x" ["a", "b"]).evaluate []
        ≠ ((LegacyFilterExpression.In "x" ["a", "b"]).evaluate []).map
            (fun b => !b) := by
  exact C8_membership_absent_key "x" ["a", "b"] [] rfl

theorem natAsF64_of_le (n : ℕ) (h : n ≤ 2 ^ 53) : natAsF64 n = (n : ℚ) := by
  rw [natAsF64, if_pos h]

theorem isizeAsF64_of_natAbs_le (a : ℤ) (h : a.natAbs ≤ 2 ^ 53) :
    isizeAsF64 a = (a : ℚ) := by
  rcases le_or_lt 0 a with ha | ha
  · rw [isizeAsF64, if_pos ha, natAsF64_of_le _ (by omega)]
    exact_mod_cast Int.toNat_of_nonneg ha
  · rw [isizeAsF64, if_neg (by omega), natAsF64_of_le _ (by omega)]
    have h2 : ((-a).toNat : ℤ) = -a := Int.toNat_of_nonneg (by omega)
    rw [← Int.cast_natCast (R := ℚ), h2]
    push_cast
    ring

/-- **C9.** The ordering operators compare an `Integer` against a `Float`
numerically after converting the integer with `as f64` — the conversion is
exact for magnitudes up to `2^53` (in particular at the claim's inputs), so
there the comparison is the exact numeric one — while `Eq` uses the derived
variant-tagged equality and is `false` on every `Integer`/`Float` pair:
`Geq`/`Leq` on `Integer 5` vs `Float 5.0` are `true`, `Eq` is `false`, both
at `compare` level and through `evaluate` on a property map with
`"x" = Integer 5`.  The final conjunct checks the model against the cast's
rounding beyond `2^53`: `2^53 + 1 as f64` rounds down to `2^53`, so
`Gt.compare (Integer (2^53+1)) (Float 2^53)` is `false`, as in the
program. -/
theorem C9_ordering_numeric_eq_tagged :
    (∀ (a : ℤ) (b : ℚ), a.natAbs ≤ 2 ^ 53 →
      ExpressionComparisonOp.Gt.compare (.Integer a) (.Float b)
          = decide ((a : ℚ) > b)
      ∧ ExpressionComparisonOp.Geq.compare (.Integer a) (.Float b)
          = decide ((a : ℚ) ≥ b)
      ∧ ExpressionComparisonOp.Lt.compare (.Integer a) (.Float b)
          = decide ((a : ℚ) < b)
      ∧ ExpressionComparisonOp.Leq.compare (.Integer a) (.Float b)
          = decide ((a : ℚ) ≤ b))
    ∧ (∀ (a : ℤ) (b : ℚ),
        ExpressionComparisonOp.Eq.compare (.Integer a) (.Float b) = false)
    ∧ (LegacyFilterExpression.Comparison .Geq "x" (.Float 5)).evaluate
        [("x", .Integer 5)] = some true
    ∧ (LegacyFilterExpression.Comparison .Leq "x" (.Float 5)).evaluate
        [("x", .Integer 5)] = some true
    ∧ (LegacyFilterExpression.Comparison .Eq "x" (.Float 5)).evaluate
        [("x", .Integer 5)] = some false
    ∧ ExpressionComparisonOp.Gt.compare (.Integer (2 ^ 53 + 1))
        (.Float (2 ^ 53)) = false := by
  have h5 : isizeAsF64 5 = (5 : ℚ) := by
    rw [isizeAsF64_of_natAbs_le 5 (by norm_num)]
    norm_num
  refine ⟨?_, ?_, ?_, ?_, ?_, ?_⟩
  · intro a b h
    simp [ExpressionComparisonOp.compare, isizeAsF64_of_natAbs_le a h]
  · intro a b
    simp [ExpressionComparisonOp.compare]
  · norm_num [LegacyFilterExpression.evaluate, ExpressionComparisonOp.compare,
      List.lookup, h5]
  · norm_num [LegacyFilterExpression.evaluate, ExpressionComparisonOp.compare,
      List.lookup, h5]
  · simp [LegacyFilterExpression.evaluate, ExpressionComparisonOp.compare,
      List.lookup]
  · have ht : ((2 ^ 53 + 1 : ℤ)).toNat = 2 ^ 53 + 1 := by
      norm_num
      rfl
    have hbig : isizeAsF64 (2 ^ 53 + 1) = ((2 : ℚ) ^ 53) := by
      rw [isizeAsF64, if_pos (by norm_num), ht]
      norm_num [natAsF64, Nat.log2]
    simp only [ExpressionComparisonOp.compare, hbig]
    norm_num

/-- **C9, witness.** The restricted universal instantiated at `Integer 2`
vs `Float 3/2` (`Gt`, exact range) and at `Integer 2` vs `Float 2`
(`Eq`). -/
theorem C9_ordering_numeric_eq_tagged_witness :
    ((2 : ℤ).natAbs ≤ 2 ^ 53
      ∧ ExpressionComparisonOp.Gt.compare (.Integer 2) (.Float (3 / 2))
          = decide (((2 : ℤ) : ℚ) > 3 / 2))
    ∧ ExpressionComparisonOp.Eq.compare (.Integer 2) (.Float 2) = false := by
  refine ⟨⟨by norm_num, ?_⟩, ?_⟩
  · exact (C9_ordering_numeric_eq_tagged.1 2 (3 / 2) (by norm_num)).1
  · exact C9_ordering_numeric_eq_tagged.2.1 2 2

/-- **C10.** `Tiles::clear` empties the tile map and the component map but
leaves the geometry index and the precomputed background tile unchanged, so
after `clear` a `find_layer` call for a style layer with no source-layer
name (that is not already externally loaded) still returns the background
quad — with its `style_layer_id` field rewritten to the requested id, the
buffer and feature indices intact. -/
theorem C10_clear_preserves_background (t : TilesM)
    (coords : WorldTileCoordsM) (style_layer_id : String)
    (loaded_layers : List String)
    (h : loaded_layers.contains style_layer_id = false) :
    t.clear.background_tile = t.background_tile
    ∧ t.clear.geometry_index = t.geometry_index
    ∧ t.clear.tiles = []
    ∧ t.clear.components = []
    ∧ (t.clear.find_layer coords none style_layer_id loaded_layers).1
        = some { t.background_tile with style_layer_id := style_layer_id } := by
  refine ⟨rfl, rfl, rfl, rfl, ?_⟩
  have h' : style_layer_id ∉ loaded_layers := by simpa using h
  simp [TilesM.find_layer, TilesM.clear, h']

/-- **C10, witness.** A concrete store with one spawned tile and one
component entry; nothing is loaded externally. -/
theorem C10_clear_preserves_background_witness :
    (TilesM.clear ⟨[((0, 0, 1), ())], [((0, 0, 1), [.Missing "water"])], 4,
          ⟨(0, 0, 0), [6], 9, "background"⟩⟩).background_tile
        = ⟨(0, 0, 0), [6], 9, "background"⟩
    ∧ ((TilesM.clear ⟨[((0, 0, 1), ())], [((0, 0, 1), [.Missing "water"])],
          4, ⟨(0, 0, 0), [6], 9, "background"⟩⟩).find_layer (0, 0, 1) none
          "bg" []).1
        = some ⟨(0, 0, 0), [6], 9, "bg"⟩ := by
  have h := C10_clear_preserves_background
    ⟨[((0, 0, 1), ())], [((0, 0, 1), [.Missing "water"])], 4,
      ⟨(0, 0, 0), [6], 9, "background"⟩⟩ (0, 0, 1) "bg" [] rfl
  exact ⟨h.1, h.2.2.2.2⟩

end Maplibre
